import Mathlib

/-!
Verification development for the solubility batch-prediction pipeline
(`backend/predict.py`).

The file shallow-embeds the pipeline:

* the external chemistry toolkit is modelled by an abstract `Mol` value
  whose fields record the outcome (value or raised exception) of each
  toolkit call the program performs on a parsed molecule, and by an
  abstract parameter `parse : String → Option Mol` standing for
  `Chem.MolFromSmiles` (`none` = parse failure);
* Python floats are modelled as rationals (`ℚ`); a raised exception is
  an `Except.error`; a Python `None` value is `Option.none`;
* `pandas` cells of the `SMILES` column are `Option String`
  (`none` = NaN); `pd.DataFrame` over a dict of per-column lists is
  modelled faithfully, including the `ValueError` it raises when the
  lists have unequal lengths, and `dropna` as a filter;
* the scaler and model artifacts are opaque row-wise pure functions, as
  the program consumes them;
* `main`'s effect is modelled as the list of emitted stdout objects plus
  the process exit code.
-/

namespace Predict

/-- A raised Python exception: `type(e).__name__` and `str(e)`. -/
structure PyError where
  etype : String
  msg : String
deriving DecidableEq, Repr

instance decEqExcept {ε α : Type} [DecidableEq ε] [DecidableEq α] :
    DecidableEq (Except ε α) := fun x y =>
  match x, y with
  | .error a, .error b =>
    if h : a = b then .isTrue (by rw [h]) else .isFalse (fun hc => h (Except.error.inj hc))
  | .ok a, .ok b =>
    if h : a = b then .isTrue (by rw [h]) else .isFalse (fun hc => h (Except.ok.inj hc))
  | .error _, .ok _ => .isFalse (fun hc => Except.noConfusion hc)
  | .ok _, .error _ => .isFalse (fun hc => Except.noConfusion hc)

/-- Abstract model of an RDKit molecule, recording the outcome of each
toolkit call `predict.py` performs on it.  `Except.error` means the call
raises. -/
structure Mol where
  /-- `[atom.GetIsAromatic() for atom in mol.GetAtoms()]` -/
  aromaticFlags : Except String (List Bool)
  /-- `Descriptors.HeavyAtomCount(mol)` -/
  heavyAtomCount : Except String Nat
  /-- `Descriptors.MolWt(mol)` -/
  molWtR : Except String ℚ
  /-- `Descriptors.MolLogP(mol)` -/
  logPR : Except String ℚ
  /-- `Descriptors.NumRotatableBonds(mol)` -/
  rotR : Except String ℚ
  /-- `Descriptors.NumHDonors(mol)` -/
  donR : Except String ℚ
  /-- `Descriptors.NumHAcceptors(mol)` -/
  accR : Except String ℚ
deriving DecidableEq

/-- `get_aromatic_proportion` (predict.py lines 15-23): proportion of
aromatic atoms among heavy atoms, `0` when there are no heavy atoms,
`None` when the computation raises (the `except` branch). -/
def get_aromatic_proportion (mol : Mol) : Option ℚ :=
  match mol.aromaticFlags with
  | .error _ => none
  | .ok flags =>
    match mol.heavyAtomCount with
    | .error _ => none
    | .ok heavy =>
      let aromatic_atoms : Nat := (flags.filter (fun b => b)).length
      if heavy > 0 then some ((aromatic_atoms : ℚ) / (heavy : ℚ)) else some 0

/-- One row of the descriptor table: the six computed descriptor values.
The first five are present whenever the row completed the loop body
(their computations returned normally); the aromatic proportion is
`none` exactly when `get_aromatic_proportion` returned `None`. -/
structure DescRecord where
  molWt : ℚ
  logP : ℚ
  numRotatableBonds : ℚ
  numHDonors : ℚ
  numHAcceptors : ℚ
  aromaticProportion : Option ℚ
deriving DecidableEq, Repr

/-- A cell of the `SMILES` column: `none` models a pandas NaN. -/
abbrev Cell : Type := Option String

/-- Python `str.strip()`: remove leading and trailing whitespace. -/
def pyStrip (s : String) : String :=
  String.mk (((s.data.dropWhile Char.isWhitespace).reverse.dropWhile
      Char.isWhitespace).reverse)

/-- The outcome of one iteration of the `for idx, smiles in enumerate(...)`
loop body of `calculate_descriptors`:

* `skip` — the row was skipped with nothing appended to any list
  (NaN/empty SMILES, failed parse, or `Descriptors.MolWt` raising before
  its `append` ran);
* `abort w rest` — one of the descriptor computations after `MolWt`
  raised: `w` was already appended to the `MolWt` list and `rest` holds
  the values appended for `LogP`, `NumRotatableBonds`, `NumHDonors`
  before the raise (the `except` at line 60 then `continue`s, leaving
  the partial appends in place);
* `complete r` — all six appends ran and `idx` was appended to
  `valid_indices`. -/
inductive RowOutcome where
  | skip : RowOutcome
  | abort : ℚ → List ℚ → RowOutcome
  | complete : DescRecord → RowOutcome
deriving DecidableEq

def RowOutcome.isAbort : RowOutcome → Bool
  | .abort _ _ => true
  | _ => false

def RowOutcome.isComplete : RowOutcome → Bool
  | .complete _ => true
  | _ => false

/-- The loop body of `calculate_descriptors` (predict.py lines 38-62) for
one row, following the Python control flow statement by statement. -/
def processRow (parse : String → Option Mol) (cell : Cell) : RowOutcome :=
  match cell with
  | none => .skip
  | some s =>
    if pyStrip s = "" then .skip
    else
      match parse (pyStrip s) with
      | none => .skip
      | some mol =>
        match mol.molWtR with
        | .error _ => .skip
        | .ok w =>
          match mol.logPR with
          | .error _ => .abort w []
          | .ok lp =>
            match mol.rotR with
            | .error _ => .abort w [lp]
            | .ok rb =>
              match mol.donR with
              | .error _ => .abort w [lp, rb]
              | .ok hd =>
                match mol.accR with
                | .error _ => .abort w [lp, rb, hd]
                | .ok ha =>
                  .complete ⟨w, lp, rb, hd, ha, get_aromatic_proportion mol⟩

/-- The mutable state of `calculate_descriptors`: the six per-descriptor
lists of `descriptors_data` plus `valid_indices`. -/
structure LoopState where
  molWtL : List ℚ
  logPL : List ℚ
  rotL : List ℚ
  donL : List ℚ
  accL : List ℚ
  aromL : List (Option ℚ)
  validIdx : List Nat
deriving DecidableEq

/-- Prepend the appends performed by one loop iteration (index `k`) onto
the state accumulated for the later rows. -/
def consOutcome (k : Nat) (o : RowOutcome) (st : LoopState) : LoopState :=
  match o with
  | .skip => st
  | .abort w rest =>
    { st with
      molWtL := w :: st.molWtL
      logPL := match rest[0]? with | some v => v :: st.logPL | none => st.logPL
      rotL := match rest[1]? with | some v => v :: st.rotL | none => st.rotL
      donL := match rest[2]? with | some v => v :: st.donL | none => st.donL }
  | .complete r =>
    { molWtL := r.molWt :: st.molWtL
      logPL := r.logP :: st.logPL
      rotL := r.numRotatableBonds :: st.rotL
      donL := r.numHDonors :: st.donL
      accL := r.numHAcceptors :: st.accL
      aromL := r.aromaticProportion :: st.aromL
      validIdx := k :: st.validIdx }

/-- The whole `for` loop of `calculate_descriptors`, starting at row
index `k`. -/
def loopFrom (parse : String → Option Mol) (k : Nat) : List Cell → LoopState
  | [] => ⟨[], [], [], [], [], [], []⟩
  | c :: t => consOutcome k (processRow parse c) (loopFrom parse (k + 1) t)

/-- `pd.DataFrame(descriptors_data)` succeeds only when all six column
lists have the same length; otherwise it raises
`ValueError("All arrays must be of the same length")`. -/
def lensOK (st : LoopState) : Bool :=
  (st.molWtL.length == st.aromL.length) &&
  (st.logPL.length == st.aromL.length) &&
  (st.rotL.length == st.aromL.length) &&
  (st.donL.length == st.aromL.length) &&
  (st.accL.length == st.aromL.length)

/-- Assemble the six equal-length column lists into per-row records
(row-major view of the `DataFrame`). -/
def zipRecords : List ℚ → List ℚ → List ℚ → List ℚ → List ℚ →
    List (Option ℚ) → List DescRecord
  | w :: ws, l :: ls, r :: rs, d :: ds, a :: as_, p :: ps =>
    ⟨w, l, r, d, a, p⟩ :: zipRecords ws ls rs ds as_ ps
  | _, _, _, _, _, _ => []

/-- `calculate_descriptors` (predict.py lines 25-78).  Returns the final
descriptor table as (original index, record) pairs in ascending index
order, or the raised exception:

* `ValueError("No valid SMILES strings found in input")` when
  `valid_indices` is empty (line 65);
* the `pd.DataFrame` length `ValueError` when a mid-row descriptor
  exception left the column lists with unequal lengths (line 67);
* the index-assignment length check of line 68 (provably unreachable);
* otherwise `dropna()` (line 72) removes every row holding a `None`. -/
def calculate_descriptors (parse : String → Option Mol) (cells : List Cell) :
    Except PyError (List (Nat × DescRecord)) :=
  let st := loopFrom parse 0 cells
  if st.validIdx = [] then
    .error ⟨"ValueError", "No valid SMILES strings found in input"⟩
  else if lensOK st = false then
    .error ⟨"ValueError", "All arrays must be of the same length"⟩
  else if st.validIdx.length ≠ st.aromL.length then
    .error ⟨"ValueError", "Length mismatch"⟩
  else
    .ok (((st.validIdx.zip
        (zipRecords st.molWtL st.logPL st.rotL st.donL st.accL st.aromL))).filter
      (fun p => p.2.aromaticProportion.isSome))

/-- Specification-side view of the loop: the (index, record) pairs of the
rows whose loop iteration completed, in ascending index order starting
at `k`. -/
def completeRowsFrom (parse : String → Option Mol) (k : Nat) :
    List Cell → List (Nat × DescRecord)
  | [] => []
  | c :: t =>
    match processRow parse c with
    | .complete r => (k, r) :: completeRowsFrom parse (k + 1) t
    | _ => completeRowsFrom parse (k + 1) t

/-- Rows dropped at the extraction stage: their loop iteration did not
complete (NaN/empty cell, failed parse, or a descriptor raise). -/
def droppedAtExtraction (parse : String → Option Mol) (cells : List Cell) : Nat :=
  cells.countP (fun c => !(processRow parse c).isComplete)

/-- Rows dropped at the missing-value filtering stage (`dropna`): the
iteration completed but the aromatic proportion is missing. -/
def droppedAtFilter (parse : String → Option Mol) (cells : List Cell) : Nat :=
  cells.countP (fun c =>
    match processRow parse c with
    | .complete r => r.aromaticProportion.isNone
    | _ => false)

/-- Rows kept in the final feature table: the iteration completed and
the aromatic proportion is present. -/
def keptP (parse : String → Option Mol) (c : Cell) : Bool :=
  match processRow parse c with
  | .complete r => r.aromaticProportion.isSome
  | _ => false

/-- One row of the input CSV: its `SMILES` cell plus the passthrough
columns (name, value). -/
structure InputRow where
  smiles : Cell
  passthrough : List (String × String)
deriving DecidableEq

/-- The parsed input CSV (`pd.read_csv` result): header plus rows. -/
structure InputTable where
  columns : List String
  rows : List InputRow
deriving DecidableEq

/-- One element of the success JSON array: all original fields plus
`Predicted_log_solubility_mol_per_L`. -/
structure OutRow where
  src : InputRow
  prediction : ℚ
deriving DecidableEq

/-- The environment `main` runs in: command line, filesystem, the
outcome of `pd.read_csv`, the chemistry toolkit and the two deserialized
artifacts (consumed as row-wise pure functions, per their contract). -/
structure Env where
  argv : List String
  fileExists : String → Bool
  readCsv : String → Except PyError InputTable
  parse : String → Option Mol
  modelLoad : Except PyError Unit
  scalerLoad : Except PyError Unit
  scalerFn : DescRecord → List ℚ
  modelFn : List ℚ → ℚ

/-- The body of `main`'s `try:` block (predict.py lines 102-157),
with `load_models` (lines 80-99) inlined at its call site.  Returns the
success rows or the exception reaching the top-level handler. -/
def mainTry (env : Env) : Except PyError (List OutRow) :=
  if env.argv.length ≠ 2 then
    .error ⟨"ValueError", "Usage: python predict.py <input_csv_file>"⟩
  else
    let input_file := env.argv.getD 1 ""
    if env.fileExists input_file = false then
      .error ⟨"FileNotFoundError", "Input file not found: " ++ input_file⟩
    else
      match env.readCsv input_file with
      | .error e => .error ⟨"ValueError", "Error reading CSV file: " ++ e.msg⟩
      | .ok input_df =>
        if input_df.columns.contains "SMILES" = false then
          .error ⟨"ValueError", "Input CSV must contain a 'SMILES' column"⟩
        else if input_df.rows.length = 0 then
          .error ⟨"ValueError", "Input CSV is empty"⟩
        else
          match calculate_descriptors env.parse (input_df.rows.map InputRow.smiles) with
          | .error e => .error e
          | .ok drows =>
            if drows.length = 0 then
              .error ⟨"ValueError", "No valid molecular descriptors could be calculated"⟩
            else if env.fileExists "random_forest_model.pkl" = false then
              .error ⟨"FileNotFoundError", "Model file not found: random_forest_model.pkl"⟩
            else if env.fileExists "scaler.pkl" = false then
              .error ⟨"FileNotFoundError", "Scaler file not found: scaler.pkl"⟩
            else
              match env.modelLoad with
              | .error e => .error e
              | .ok _ =>
                match env.scalerLoad with
                | .error e => .error e
                | .ok _ =>
                  let predictions := drows.map (fun p => env.modelFn (env.scalerFn p.2))
                  if drows.all (fun p => decide (p.1 < input_df.rows.length)) = false then
                    .error ⟨"KeyError", "passed indexes not found in input table"⟩
                  else
                    .ok ((drows.zip predictions).map
                      (fun q => ⟨input_df.rows.getD q.1.1 ⟨none, []⟩, q.2⟩))

/-- One object written to stdout: the success JSON array or the error
envelope `json.dumps({"error": msg, "type": kind})`. -/
inductive Emitted where
  | arr : List OutRow → Emitted
  | errObj : (error : String) → (etype : String) → Emitted
deriving DecidableEq

/-- Observable behaviour of one invocation: stdout objects, exit code. -/
structure RunResult where
  out : List Emitted
  exitCode : Nat
deriving DecidableEq

/-- `main` (predict.py lines 101-166): the single top-level handler turns
any exception into the error envelope and exits 1; otherwise the success
array is printed and the process exits 0. -/
def main (env : Env) : RunResult :=
  match mainTry env with
  | .ok rows => ⟨[.arr rows], 0⟩
  | .error e => ⟨[.errObj e.msg e.etype], 1⟩

/-! ### Concrete molecules, tables and environments used in examples

These model specific toolkit behaviours: `molG` a molecule on which every
toolkit call succeeds, `molZ` one with zero heavy atoms, `molE` one whose
aromatic-proportion computation raises, `molBoom`/`molBoom2` ones on
which a descriptor computation after `MolWt` raises. -/

def molG : Mol := ⟨.ok [], .ok 0, .ok 10, .ok 1, .ok 2, .ok 3, .ok 4⟩

def molE : Mol := ⟨.error "GetAtoms raised", .ok 1, .ok 5, .ok 6, .ok 7, .ok 8, .ok 9⟩

def molBoom : Mol := ⟨.ok [], .ok 1, .ok 1, .error "MolLogP raised", .ok 0, .ok 0, .ok 0⟩

def molBoom2 : Mol :=
  ⟨.ok [], .ok 1, .ok 1, .ok 2, .ok 3, .error "NumHDonors raised", .ok 0⟩

def recG : DescRecord := ⟨10, 1, 2, 3, 4, some 0⟩

def recE : DescRecord := ⟨5, 6, 7, 8, 9, none⟩

def parseW : String → Option Mol := fun s =>
  if s = "CCO" then some molG
  else if s = "ERR" then some molE
  else if s = "BOOM" then some molBoom
  else if s = "BOOM2" then some molBoom2
  else none

def tblW : InputTable :=
  ⟨["SMILES", "Name"],
   [⟨some "CCO", [("Name", "ethanol")]⟩,
    ⟨some " ", []⟩,
    ⟨some "XXX", []⟩,
    ⟨some "ERR", [("Name", "weird")]⟩]⟩

def cellsW : List Cell := tblW.rows.map InputRow.smiles

def drowsW : List (Nat × DescRecord) := [(0, recG)]

def envW : Env :=
  ⟨["predict.py", "in.csv"], fun _ => true, fun _ => .ok tblW, parseW,
   .ok (), .ok (), fun r => [r.molWt, r.logP], fun v => v.headD 0⟩

def outW : List OutRow := [⟨⟨some "CCO", [("Name", "ethanol")]⟩, 10⟩]

def cellsC2 : List Cell := [some "CCO", some "BOOM"]

def cellsC6 : List Cell := [some "CCO", some "BOOM2", some "CCO"]

def tblNoCol : InputTable := ⟨["Name"], [⟨none, [("Name", "x")]⟩]⟩

def tblEmpty : InputTable := ⟨["SMILES"], []⟩

def envU : Env :=
  ⟨["predict.py"], fun _ => true, fun _ => .ok tblW, parseW, .ok (), .ok (),
   fun _ => [], fun _ => 0⟩

def envNoCol : Env :=
  ⟨["predict.py", "in.csv"], fun _ => true, fun _ => .ok tblNoCol, parseW,
   .ok (), .ok (), fun _ => [], fun _ => 0⟩

def envEmpty : Env :=
  ⟨["predict.py", "in.csv"], fun _ => true, fun _ => .ok tblEmpty, parseW,
   .ok (), .ok (), fun _ => [], fun _ => 0⟩

def envNoModel : Env :=
  ⟨["predict.py", "in.csv"], fun f => f == "in.csv", fun _ => .ok tblW, parseW,
   .ok (), .ok (), fun _ => [], fun _ => 0⟩

def envNoScaler : Env :=
  ⟨["predict.py", "in.csv"], fun f => (f == "in.csv") || (f == "random_forest_model.pkl"),
   fun _ => .ok tblW, parseW, .ok (), .ok (), fun _ => [], fun _ => 0⟩

def tblAllBad : InputTable := ⟨["SMILES"], [⟨some "XXX", []⟩, ⟨none, []⟩]⟩

def envAllBad : Env :=
  ⟨["predict.py", "in.csv"], fun f => f == "in.csv", fun _ => .ok tblAllBad, parseW,
   .error ⟨"FileNotFoundError", "no artifacts"⟩,
   .error ⟨"FileNotFoundError", "no artifacts"⟩, fun _ => [], fun _ => 0⟩

/-! ### Characterization of the extraction loop -/

/-- The `MolWt` list outruns the aromatic-proportion list by exactly the
number of aborted (partially appended) rows. -/
lemma molWtL_length (parse : String → Option Mol) :
    ∀ (cells : List Cell) (k : Nat),
      (loopFrom parse k cells).molWtL.length =
        (loopFrom parse k cells).aromL.length +
          cells.countP (fun c => (processRow parse c).isAbort) := by
  intro cells
  induction cells with
  | nil => intro k; simp [loopFrom]
  | cons c t ih =>
    intro k
    rcases h : processRow parse c with _ | ⟨w, rest⟩ | r <;>
      simp [loopFrom, consOutcome, List.countP_cons, h, RowOutcome.isAbort, ih (k + 1)] <;>
      omega

/-- When no row aborted, the loop state is exactly the column-wise view
of the completed rows. -/
lemma loopFrom_eq_of_noAborts (parse : String → Option Mol) :
    ∀ (cells : List Cell) (k : Nat),
      (∀ c ∈ cells, (processRow parse c).isAbort = false) →
      loopFrom parse k cells =
        ⟨(completeRowsFrom parse k cells).map (fun p => p.2.molWt),
         (completeRowsFrom parse k cells).map (fun p => p.2.logP),
         (completeRowsFrom parse k cells).map (fun p => p.2.numRotatableBonds),
         (completeRowsFrom parse k cells).map (fun p => p.2.numHDonors),
         (completeRowsFrom parse k cells).map (fun p => p.2.numHAcceptors),
         (completeRowsFrom parse k cells).map (fun p => p.2.aromaticProportion),
         (completeRowsFrom parse k cells).map Prod.fst⟩ := by
  intro cells
  induction cells with
  | nil => intro k _; simp [loopFrom, completeRowsFrom]
  | cons c t ih =>
    intro k h
    have hc := h c (List.mem_cons_self c t)
    have ht : ∀ c' ∈ t, (processRow parse c').isAbort = false :=
      fun c' hmem => h c' (List.mem_cons_of_mem c hmem)
    rcases hpr : processRow parse c with _ | ⟨w, rest⟩ | r
    · simp [loopFrom, consOutcome, completeRowsFrom, hpr, ih (k + 1) ht]
    · rw [hpr] at hc; simp [RowOutcome.isAbort] at hc
    · simp [loopFrom, consOutcome, completeRowsFrom, hpr, ih (k + 1) ht]

/-- Reassembling the six column maps recovers the record list. -/
lemma zipRecords_maps : ∀ (rs : List (Nat × DescRecord)),
    zipRecords (rs.map (fun p => p.2.molWt)) (rs.map (fun p => p.2.logP))
      (rs.map (fun p => p.2.numRotatableBonds)) (rs.map (fun p => p.2.numHDonors))
      (rs.map (fun p => p.2.numHAcceptors)) (rs.map (fun p => p.2.aromaticProportion)) =
      rs.map Prod.snd := by
  intro rs
  induction rs with
  | nil => simp [zipRecords]
  | cons p t ih => simp [zipRecords, ih]

/-- Zipping a pair list's component maps recovers the pair list. -/
lemma zip_map_fst_snd_self : ∀ (rs : List (Nat × DescRecord)),
    (rs.map Prod.fst).zip (rs.map Prod.snd) = rs := by
  intro rs
  induction rs with
  | nil => simp
  | cons p t ih => simp [ih]

/-- Inversion of a successful `calculate_descriptors` run: no row
aborted mid-descriptors, and the result is the completed rows filtered
by presence of the aromatic proportion (`dropna`). -/
lemma calc_ok_inv (parse : String → Option Mol) (cells : List Cell)
    (drows : List (Nat × DescRecord))
    (h : calculate_descriptors parse cells = .ok drows) :
    (∀ c ∈ cells, (processRow parse c).isAbort = false) ∧
      drows = (completeRowsFrom parse 0 cells).filter
        (fun p => p.2.aromaticProportion.isSome) := by
  simp only [calculate_descriptors] at h
  split at h
  · exact absurd h (by simp)
  · split at h
    · exact absurd h (by simp)
    · split at h
      · exact absurd h (by simp)
      · rename_i hne hlens hlen
        have htr : lensOK (loopFrom parse 0 cells) = true := by
          rcases Bool.eq_false_or_eq_true (lensOK (loopFrom parse 0 cells)) with htr | hf
          · exact htr
          · exact absurd hf hlens
        have hml : (loopFrom parse 0 cells).molWtL.length =
            (loopFrom parse 0 cells).aromL.length := by
          simp only [lensOK, Bool.and_eq_true, beq_iff_eq] at htr
          exact htr.1.1.1.1
        have hcount : cells.countP (fun c => (processRow parse c).isAbort) = 0 := by
          have h1 := molWtL_length parse cells 0
          omega
        have hnab : ∀ c ∈ cells, (processRow parse c).isAbort = false := by
          intro c hmem
          have := List.countP_eq_zero.mp hcount c hmem
          simpa using this
        refine ⟨hnab, ?_⟩
        rw [loopFrom_eq_of_noAborts parse cells 0 hnab] at h
        simp only [Except.ok.injEq] at h
        rw [← h, zipRecords_maps, zip_map_fst_snd_self]

/-- `valid_indices` is the index column of the completed rows. -/
lemma validIdx_eq (parse : String → Option Mol) :
    ∀ (cells : List Cell) (k : Nat),
      (loopFrom parse k cells).validIdx = (completeRowsFrom parse k cells).map Prod.fst := by
  intro cells
  induction cells with
  | nil => intro k; simp [loopFrom, completeRowsFrom]
  | cons c t ih =>
    intro k
    rcases hpr : processRow parse c with _ | ⟨w, rest⟩ | r <;>
      simp [loopFrom, consOutcome, completeRowsFrom, hpr, ih (k + 1)]

/-- Membership in the completed-rows view: row `i` is present with
record `r` iff its cell exists and its loop iteration completed with
exactly that record. -/
lemma mem_completeRowsFrom (parse : String → Option Mol) :
    ∀ (cells : List Cell) (k i : Nat) (r : DescRecord),
      ((i, r) ∈ completeRowsFrom parse k cells ↔
        k ≤ i ∧ ∃ c, cells[i - k]? = some c ∧ processRow parse c = RowOutcome.complete r) := by
  intro cells
  induction cells with
  | nil => intro k i r; simp [completeRowsFrom]
  | cons c t ih =>
    intro k i r
    rcases hpr : processRow parse c with _ | ⟨w, rest⟩ | r0
    case skip =>
      simp only [completeRowsFrom, hpr]
      rw [ih (k + 1) i r]
      constructor
      · rintro ⟨hki, c', hc', hpc'⟩
        refine ⟨by omega, c', ?_, hpc'⟩
        have hik : i - k = (i - (k + 1)) + 1 := by omega
        rw [hik]
        simpa using hc'
      · rintro ⟨hki, c', hc', hpc'⟩
        rcases Nat.eq_or_lt_of_le hki with heq | hlt
        · exfalso
          rw [← heq, Nat.sub_self] at hc'
          simp only [List.getElem?_cons_zero, Option.some.injEq] at hc'
          rw [← hc'] at hpc'
          rw [hpr] at hpc'
          exact RowOutcome.noConfusion hpc'
        · refine ⟨by omega, c', ?_, hpc'⟩
          have hik : i - k = (i - (k + 1)) + 1 := by omega
          rw [hik] at hc'
          simpa using hc'
    case abort =>
      simp only [completeRowsFrom, hpr]
      rw [ih (k + 1) i r]
      constructor
      · rintro ⟨hki, c', hc', hpc'⟩
        refine ⟨by omega, c', ?_, hpc'⟩
        have hik : i - k = (i - (k + 1)) + 1 := by omega
        rw [hik]
        simpa using hc'
      · rintro ⟨hki, c', hc', hpc'⟩
        rcases Nat.eq_or_lt_of_le hki with heq | hlt
        · exfalso
          rw [← heq, Nat.sub_self] at hc'
          simp only [List.getElem?_cons_zero, Option.some.injEq] at hc'
          rw [← hc'] at hpc'
          rw [hpr] at hpc'
          exact RowOutcome.noConfusion hpc'
        · refine ⟨by omega, c', ?_, hpc'⟩
          have hik : i - k = (i - (k + 1)) + 1 := by omega
          rw [hik] at hc'
          simpa using hc'
    case complete =>
      simp only [completeRowsFrom, hpr, List.mem_cons]
      rw [ih (k + 1) i r]
      constructor
      · rintro (heq | ⟨hki, c', hc', hpc'⟩)
        · rw [Prod.mk.injEq] at heq
          refine ⟨le_of_eq heq.1.symm, c, ?_, ?_⟩
          · rw [← heq.1, Nat.sub_self]; simp
          · rw [hpr, heq.2]
        · refine ⟨by omega, c', ?_, hpc'⟩
          have hik : i - k = (i - (k + 1)) + 1 := by omega
          rw [hik]
          simpa using hc'
      · rintro ⟨hki, c', hc', hpc'⟩
        rcases Nat.eq_or_lt_of_le hki with heq | hlt
        · left
          rw [← heq, Nat.sub_self] at hc'
          simp only [List.getElem?_cons_zero, Option.some.injEq] at hc'
          rw [← hc', hpr] at hpc'
          injection hpc' with hr
          rw [Prod.mk.injEq]
          exact ⟨heq.symm, hr.symm⟩
        · right
          refine ⟨by omega, c', ?_, hpc'⟩
          have hik : i - k = (i - (k + 1)) + 1 := by omega
          rw [hik] at hc'
          simpa using hc'

/-- Completed-row indices are bounded below by the starting index. -/
lemma completeRowsFrom_fst_le (parse : String → Option Mol) (cells : List Cell)
    (k : Nat) (p : Nat × DescRecord) (hmem : p ∈ completeRowsFrom parse k cells) :
    k ≤ p.1 :=
  ((mem_completeRowsFrom parse cells k p.1 p.2).mp hmem).1

/-- Completed-row indices are bounded by the number of rows. -/
lemma completeRowsFrom_fst_lt (parse : String → Option Mol) (cells : List Cell)
    (k : Nat) (p : Nat × DescRecord) (hmem : p ∈ completeRowsFrom parse k cells) :
    p.1 < k + cells.length := by
  obtain ⟨hk, c, hc, _⟩ := (mem_completeRowsFrom parse cells k p.1 p.2).mp hmem
  have : p.1 - k < cells.length := by
    rcases Nat.lt_or_ge (p.1 - k) cells.length with hlt | hge
    · exact hlt
    · rw [List.getElem?_eq_none hge] at hc
      exact Option.noConfusion hc
  omega

/-- The completed rows are listed in strictly ascending index order. -/
lemma completeRowsFrom_sorted (parse : String → Option Mol) :
    ∀ (cells : List Cell) (k : Nat),
      ((completeRowsFrom parse k cells).map Prod.fst).Sorted (· < ·) := by
  intro cells
  induction cells with
  | nil => intro k; simp [completeRowsFrom]
  | cons c t ih =>
    intro k
    rcases hpr : processRow parse c with _ | ⟨w, rest⟩ | r
    · simpa [completeRowsFrom, hpr] using ih (k + 1)
    · simpa [completeRowsFrom, hpr] using ih (k + 1)
    · simp only [completeRowsFrom, hpr, List.map_cons]
      rw [List.sorted_cons]
      refine ⟨?_, ih (k + 1)⟩
      intro b hb
      obtain ⟨p, hp, hpb⟩ := List.mem_map.mp hb
      have := completeRowsFrom_fst_le parse t (k + 1) p hp
      omega

/-- The completed-row count is the count of rows whose iteration
completed. -/
lemma length_completeRowsFrom (parse : String → Option Mol) :
    ∀ (cells : List Cell) (k : Nat),
      (completeRowsFrom parse k cells).length =
        cells.countP (fun c => (processRow parse c).isComplete) := by
  intro cells
  induction cells with
  | nil => intro k; simp [completeRowsFrom]
  | cons c t ih =>
    intro k
    rcases hpr : processRow parse c with _ | ⟨w, rest⟩ | r <;>
      simp [completeRowsFrom, hpr, List.countP_cons, RowOutcome.isComplete, ih (k + 1)]

/-- The final feature-table size is the count of kept rows. -/
lemma length_filter_completeRowsFrom (parse : String → Option Mol) :
    ∀ (cells : List Cell) (k : Nat),
      ((completeRowsFrom parse k cells).filter
          (fun p => p.2.aromaticProportion.isSome)).length =
        cells.countP (keptP parse) := by
  intro cells
  induction cells with
  | nil => intro k; simp [completeRowsFrom]
  | cons c t ih =>
    intro k
    rcases hpr : processRow parse c with _ | ⟨w, rest⟩ | r
    · simp [completeRowsFrom, hpr, List.countP_cons, keptP, ih (k + 1)]
    · simp [completeRowsFrom, hpr, List.countP_cons, keptP, ih (k + 1)]
    · rcases har : r.aromaticProportion with _ | q <;>
        simp [completeRowsFrom, hpr, List.countP_cons, keptP, List.filter_cons, har,
          ih (k + 1)]

/-- Every input row is dropped at extraction, dropped at filtering, or
kept: the three counts partition the input. -/
lemma counts_partition (parse : String → Option Mol) (cells : List Cell) :
    cells.length = droppedAtExtraction parse cells + droppedAtFilter parse cells +
      cells.countP (keptP parse) := by
  induction cells with
  | nil => simp [droppedAtExtraction, droppedAtFilter]
  | cons c t ih =>
    rcases hpr : processRow parse c with _ | ⟨w, rest⟩ | r
    case skip =>
      have h1 : droppedAtExtraction parse (c :: t) = droppedAtExtraction parse t + 1 := by
        simp [droppedAtExtraction, List.countP_cons, hpr, RowOutcome.isComplete]
      have h2 : droppedAtFilter parse (c :: t) = droppedAtFilter parse t := by
        simp [droppedAtFilter, List.countP_cons, hpr]
      have h3 : (c :: t).countP (keptP parse) = t.countP (keptP parse) := by
        simp [List.countP_cons, keptP, hpr]
      rw [List.length_cons, h1, h2, h3]
      omega
    case abort =>
      have h1 : droppedAtExtraction parse (c :: t) = droppedAtExtraction parse t + 1 := by
        simp [droppedAtExtraction, List.countP_cons, hpr, RowOutcome.isComplete]
      have h2 : droppedAtFilter parse (c :: t) = droppedAtFilter parse t := by
        simp [droppedAtFilter, List.countP_cons, hpr]
      have h3 : (c :: t).countP (keptP parse) = t.countP (keptP parse) := by
        simp [List.countP_cons, keptP, hpr]
      rw [List.length_cons, h1, h2, h3]
      omega
    case complete =>
      rcases har : r.aromaticProportion with _ | q
      · have h1 : droppedAtExtraction parse (c :: t) = droppedAtExtraction parse t := by
          simp [droppedAtExtraction, List.countP_cons, hpr, RowOutcome.isComplete]
        have h2 : droppedAtFilter parse (c :: t) = droppedAtFilter parse t + 1 := by
          simp [droppedAtFilter, List.countP_cons, hpr, har]
        have h3 : (c :: t).countP (keptP parse) = t.countP (keptP parse) := by
          simp [List.countP_cons, keptP, hpr, har]
        rw [List.length_cons, h1, h2, h3]
        omega
      · have h1 : droppedAtExtraction parse (c :: t) = droppedAtExtraction parse t := by
          simp [droppedAtExtraction, List.countP_cons, hpr, RowOutcome.isComplete]
        have h2 : droppedAtFilter parse (c :: t) = droppedAtFilter parse t := by
          simp [droppedAtFilter, List.countP_cons, hpr, har]
        have h3 : (c :: t).countP (keptP parse) = t.countP (keptP parse) + 1 := by
          simp [List.countP_cons, keptP, hpr, har]
        rw [List.length_cons, h1, h2, h3]
        omega

/-! ### Python `str.strip` -/

/-- `pyStrip` written with Mathlib's `rdropWhile`. -/
lemma pyStrip_eq_rdrop (s : String) :
    pyStrip s = String.mk
      (List.rdropWhile Char.isWhitespace (s.data.dropWhile Char.isWhitespace)) := rfl

/-- After stripping leading whitespace and then trailing whitespace,
stripping leading whitespace again changes nothing. -/
lemma dropWhile_rdropWhile_dropWhile {α : Type} (p : α → Bool) (l : List α) :
    List.dropWhile p (List.rdropWhile p (List.dropWhile p l)) =
      List.rdropWhile p (List.dropWhile p l) := by
  rcases hB : List.rdropWhile p (List.dropWhile p l) with _ | ⟨a, t⟩
  · simp
  · have hpre : List.rdropWhile p (List.dropWhile p l) <+: List.dropWhile p l :=
      List.rdropWhile_prefix p (List.dropWhile p l)
    rw [hB] at hpre
    obtain ⟨u, hu⟩ := hpre
    rcases Bool.eq_false_or_eq_true (p a) with hpa | hpa
    · exfalso
      have hidem : List.dropWhile p (List.dropWhile p l) = List.dropWhile p l :=
        List.dropWhile_idempotent p l
      rw [← hu] at hidem
      simp only [List.cons_append, List.dropWhile_cons, hpa, if_pos] at hidem
      have hle : (List.dropWhile p (t ++ u)).length ≤ (t ++ u).length :=
        (List.IsSuffix.sublist (List.dropWhile_suffix p)).length_le
      rw [hidem] at hle
      simp at hle
    · simp [List.dropWhile_cons, hpa]

/-- Python `strip` is idempotent. -/
lemma pyStrip_idem (s : String) : pyStrip (pyStrip s) = pyStrip s := by
  show String.mk (List.rdropWhile Char.isWhitespace (List.dropWhile Char.isWhitespace
      (List.rdropWhile Char.isWhitespace (List.dropWhile Char.isWhitespace s.data)))) =
    String.mk (List.rdropWhile Char.isWhitespace (List.dropWhile Char.isWhitespace s.data))
  rw [dropWhile_rdropWhile_dropWhile, List.rdropWhile_idempotent]

/-! ### Characterization of `main`'s success path -/

/-- Zipping a list with its own map and projecting is a single map. -/
lemma zip_map_self {α β γ : Type} (l : List α) (f : α → β) (g : α × β → γ) :
    (l.zip (l.map f)).map g = l.map (fun a => g (a, f a)) := by
  induction l with
  | nil => simp
  | cons a t ih => simp [ih]

/-- Inversion of a successful run: every stage check passed and the
output is the surviving rows joined with their predictions. -/
lemma mainTry_ok_inv (env : Env) (out : List OutRow)
    (h : mainTry env = .ok out) :
    env.argv.length = 2 ∧
    ∃ tbl drows,
      env.readCsv (env.argv.getD 1 "") = .ok tbl ∧
      "SMILES" ∈ tbl.columns ∧
      tbl.rows ≠ [] ∧
      calculate_descriptors env.parse (tbl.rows.map InputRow.smiles) = .ok drows ∧
      drows ≠ [] ∧
      (∀ p ∈ drows, p.1 < tbl.rows.length) ∧
      out = drows.map (fun p =>
        ⟨tbl.rows.getD p.1 ⟨none, []⟩, env.modelFn (env.scalerFn p.2)⟩) := by
  by_cases h1 : env.argv.length = 2
  case neg => simp [mainTry, h1] at h
  case pos =>
  obtain ⟨a0, a1, hargs⟩ := List.length_eq_two.mp h1
  have hget : env.argv.getD 1 "" = a1 := by rw [hargs]; rfl
  by_cases h2 : env.fileExists a1 = true
  case neg =>
    rw [Bool.not_eq_true] at h2
    simp [mainTry, hargs, h2] at h
  case pos =>
  cases h3 : env.readCsv a1 with
  | error e => simp [mainTry, hargs, h2, h3] at h
  | ok tbl =>
  by_cases h4 : "SMILES" ∈ tbl.columns
  case neg => simp [mainTry, hargs, h2, h3, h4] at h
  case pos =>
  by_cases h5 : tbl.rows = []
  case pos => simp [mainTry, hargs, h2, h3, h4, h5] at h
  case neg =>
  cases h6 : calculate_descriptors env.parse (tbl.rows.map InputRow.smiles) with
  | error e => simp [mainTry, hargs, h2, h3, h4, h5, h6] at h
  | ok drows =>
  by_cases h7 : drows = []
  case pos => simp [mainTry, hargs, h2, h3, h4, h5, h6, h7] at h
  case neg =>
  by_cases h8 : env.fileExists "random_forest_model.pkl" = true
  case neg =>
    rw [Bool.not_eq_true] at h8
    simp [mainTry, hargs, h2, h3, h4, h5, h6, h7, h8] at h
  case pos =>
  by_cases h9 : env.fileExists "scaler.pkl" = true
  case neg =>
    rw [Bool.not_eq_true] at h9
    simp [mainTry, hargs, h2, h3, h4, h5, h6, h7, h8, h9] at h
  case pos =>
  cases h10 : env.modelLoad with
  | error e => simp [mainTry, hargs, h2, h3, h4, h5, h6, h7, h8, h9, h10] at h
  | ok u =>
  cases h11 : env.scalerLoad with
  | error e => simp [mainTry, hargs, h2, h3, h4, h5, h6, h7, h8, h9, h10, h11] at h
  | ok v =>
  by_cases h12 : drows.all (fun p => decide (p.1 < tbl.rows.length)) = true
  case neg =>
    rw [Bool.not_eq_true] at h12
    simp [mainTry, hargs, h2, h3, h4, h5, h6, h7, h8, h9, h10, h11, h12] at h
  case pos =>
  have hrun : mainTry env = .ok ((drows.zip
      (drows.map (fun p => env.modelFn (env.scalerFn p.2)))).map
      (fun q => ⟨tbl.rows.getD q.1.1 ⟨none, []⟩, q.2⟩)) := by
    simp [mainTry, hargs, h2, h3, h4, h5, h6, h7, h8, h9, h10, h11, h12]
  rw [h] at hrun
  injection hrun with hout
  refine ⟨h1, tbl, drows, ?_, h4, h5, h6, h7, ?_, ?_⟩
  · rw [hget]; exact h3
  · intro p hp
    have := List.all_eq_true.mp h12 p hp
    exact of_decide_eq_true this
  · rw [hout, zip_map_self]

/-- If the loop records no valid index, `calculate_descriptors` raises
the no-valid-input `ValueError`. -/
lemma calc_error_of_validIdx_nil (parse : String → Option Mol) (cells : List Cell)
    (h : (loopFrom parse 0 cells).validIdx = []) :
    calculate_descriptors parse cells =
      .error ⟨"ValueError", "No valid SMILES strings found in input"⟩ := by
  simp [calculate_descriptors, h]

/-! ### The claims -/

/-- Claim C1: for every input table and every index that survives
descriptor extraction and missing-value filtering, the prediction
attached to output row `i` is the model's output (after scaling) on the
descriptor record computed from input row `i` itself — no row
permutation — and the output rows appear in ascending order of surviving
original index. -/
theorem claim_C1_index_alignment (env : Env) (tbl : InputTable) (out : List OutRow)
    (hcsv : env.readCsv (env.argv.getD 1 "") = .ok tbl)
    (h : mainTry env = .ok out) :
    ∃ drows,
      calculate_descriptors env.parse (tbl.rows.map InputRow.smiles) = .ok drows ∧
      (drows.map Prod.fst).Sorted (· < ·) ∧
      out = drows.map (fun p =>
        ⟨tbl.rows.getD p.1 ⟨none, []⟩, env.modelFn (env.scalerFn p.2)⟩) ∧
      ∀ p ∈ drows, ∃ c, (tbl.rows.map InputRow.smiles)[p.1]? = some c ∧
        processRow env.parse c = RowOutcome.complete p.2 := by
  obtain ⟨h1, tbl', drows, hcsv', hcol, hrows, hcalc, hne, hbd, hout⟩ :=
    mainTry_ok_inv env out h
  rw [hcsv] at hcsv'
  injection hcsv' with htbl
  subst htbl
  obtain ⟨hnab, hd⟩ := calc_ok_inv env.parse (tbl.rows.map InputRow.smiles) drows hcalc
  refine ⟨drows, hcalc, ?_, hout, ?_⟩
  · rw [hd]
    have hsub : (((completeRowsFrom env.parse 0 (tbl.rows.map InputRow.smiles)).filter
        (fun p => p.2.aromaticProportion.isSome)).map Prod.fst).Sublist
        ((completeRowsFrom env.parse 0 (tbl.rows.map InputRow.smiles)).map Prod.fst) :=
      List.Sublist.map Prod.fst (List.filter_sublist _)
    exact List.Pairwise.sublist hsub
      (completeRowsFrom_sorted env.parse (tbl.rows.map InputRow.smiles) 0)
  · rintro ⟨i, r⟩ hp
    rw [hd] at hp
    have hmem := (List.mem_filter.mp hp).1
    obtain ⟨-, c, hc, hpc⟩ :=
      (mem_completeRowsFrom env.parse (tbl.rows.map InputRow.smiles) 0 i r).mp hmem
    rw [Nat.sub_zero] at hc
    exact ⟨c, hc, hpc⟩

/-- Instantiation of C1 on a concrete run (four input rows, one
survivor). -/
theorem claim_C1_witness :
    ∃ drows,
      calculate_descriptors envW.parse (tblW.rows.map InputRow.smiles) = .ok drows ∧
      (drows.map Prod.fst).Sorted (· < ·) ∧
      outW = drows.map (fun p =>
        ⟨tblW.rows.getD p.1 ⟨none, []⟩, envW.modelFn (envW.scalerFn p.2)⟩) ∧
      ∀ p ∈ drows, ∃ c, (tblW.rows.map InputRow.smiles)[p.1]? = some c ∧
        processRow envW.parse c = RowOutcome.complete p.2 :=
  claim_C1_index_alignment envW tblW outW (by decide) (by decide)

/-- Claim C2 (code bug): a row whose descriptor computation raises after
the `MolWt` append is NOT silently excluded: the partial appends leave
the per-column lists with unequal lengths, so `pd.DataFrame` raises and
the whole extraction aborts even though another row yielded a record. -/
theorem claim_C2_midrow_exception_aborts_batch :
    (processRow parseW (some "CCO")).isComplete = true ∧
    processRow parseW (some "BOOM") = RowOutcome.abort 1 [] ∧
    calculate_descriptors parseW cellsC2 =
      .error ⟨"ValueError", "All arrays must be of the same length"⟩ :=
  ⟨by decide, by decide, by decide⟩

/-- Claim C3: every record in a successfully returned feature table is
fully populated — the five always-present descriptor fields are total by
construction and the aromatic proportion is present after `dropna`. -/
theorem claim_C3_no_partial_records (parse : String → Option Mol) (cells : List Cell)
    (drows : List (Nat × DescRecord)) (p : Nat × DescRecord)
    (hcalc : calculate_descriptors parse cells = .ok drows) (hp : p ∈ drows) :
    p.2.aromaticProportion.isSome = true := by
  obtain ⟨-, hd⟩ := calc_ok_inv parse cells drows hcalc
  rw [hd] at hp
  have := (List.mem_filter.mp hp).2
  simpa using this

/-- Instantiation of C3 on a concrete run. -/
theorem claim_C3_witness :
    ((0, recG) : Nat × DescRecord).2.aromaticProportion.isSome = true :=
  claim_C3_no_partial_records parseW cellsW drowsW (0, recG) (by decide) (by decide)

/-- Claim C4: for a parsed molecule the aromatic proportion is
(aromatic atoms)/(heavy atoms), `0` when there are no heavy atoms (row
retained); when the computation raises, the value is recorded as missing,
the row still survives extraction (it is in `valid_indices`), and it is
removed only at the missing-value filtering stage. -/
theorem claim_C4_aromatic_proportion (parse : String → Option Mol) (cells : List Cell)
    (drows : List (Nat × DescRecord))
    (i : Nat) (s : String) (mol : Mol) (flags : List Bool) (heavy : Nat)
    (w l rb hd ha : ℚ)
    (j : Nat) (s2 : String) (mol2 : Mol) (w2 l2 rb2 hd2 ha2 : ℚ)
    (hc : cells[i]? = some (some s)) (hs : ¬ pyStrip s = "")
    (hp : parse (pyStrip s) = some mol)
    (hf : mol.aromaticFlags = .ok flags) (hh : mol.heavyAtomCount = .ok heavy)
    (hw : mol.molWtR = .ok w) (hl : mol.logPR = .ok l) (hrb : mol.rotR = .ok rb)
    (hhd : mol.donR = .ok hd) (hha : mol.accR = .ok ha)
    (hc2 : cells[j]? = some (some s2)) (hs2 : ¬ pyStrip s2 = "")
    (hp2 : parse (pyStrip s2) = some mol2)
    (hE : (∃ e, mol2.aromaticFlags = .error e) ∨ ∃ e, mol2.heavyAtomCount = .error e)
    (hw2 : mol2.molWtR = .ok w2) (hl2 : mol2.logPR = .ok l2) (hrb2 : mol2.rotR = .ok rb2)
    (hhd2 : mol2.donR = .ok hd2) (hha2 : mol2.accR = .ok ha2)
    (hcalc : calculate_descriptors parse cells = .ok drows) :
    get_aromatic_proportion mol =
      some (if heavy > 0 then (((flags.filter (fun b => b)).length : ℚ) / (heavy : ℚ))
            else 0) ∧
    (i, ⟨w, l, rb, hd, ha, get_aromatic_proportion mol⟩) ∈ drows ∧
    get_aromatic_proportion mol2 = none ∧
    j ∈ (loopFrom parse 0 cells).validIdx ∧
    drows.filter (fun p => p.1 == j) = [] := by
  have hgap : get_aromatic_proportion mol =
      some (if heavy > 0 then (((flags.filter (fun b => b)).length : ℚ) / (heavy : ℚ))
            else 0) := by
    simp only [get_aromatic_proportion, hf, hh]
    split <;> rfl
  have hgap2 : get_aromatic_proportion mol2 = none := by
    rcases hE with ⟨e, he⟩ | ⟨e, he⟩
    · simp only [get_aromatic_proportion, he]
    · cases hfl : mol2.aromaticFlags with
      | error e2 => simp only [get_aromatic_proportion, hfl]
      | ok fl => simp only [get_aromatic_proportion, hfl, he]
  have hrow : processRow parse (some s) =
      RowOutcome.complete ⟨w, l, rb, hd, ha, get_aromatic_proportion mol⟩ := by
    simp only [processRow, if_neg hs, hp, hw, hl, hrb, hhd, hha]
  have hrow2 : processRow parse (some s2) =
      RowOutcome.complete ⟨w2, l2, rb2, hd2, ha2, get_aromatic_proportion mol2⟩ := by
    simp only [processRow, if_neg hs2, hp2, hw2, hl2, hrb2, hhd2, hha2]
  obtain ⟨hnab, hd'⟩ := calc_ok_inv parse cells drows hcalc
  refine ⟨hgap, ?_, hgap2, ?_, ?_⟩
  · rw [hd']
    refine List.mem_filter.mpr ⟨?_, ?_⟩
    · refine (mem_completeRowsFrom parse cells 0 i _).mpr ⟨Nat.zero_le i, some s, ?_, hrow⟩
      rw [Nat.sub_zero]; exact hc
    · simp [hgap]
  · rw [validIdx_eq]
    refine List.mem_map.mpr ⟨(j, ⟨w2, l2, rb2, hd2, ha2, get_aromatic_proportion mol2⟩),
      ?_, rfl⟩
    refine (mem_completeRowsFrom parse cells 0 j _).mpr ⟨Nat.zero_le j, some s2, ?_, hrow2⟩
    rw [Nat.sub_zero]; exact hc2
  · rw [hd', List.filter_eq_nil_iff]
    rintro ⟨i', r'⟩ hmem hbeq
    have hj : i' = j := by simpa using hbeq
    have hmem' := List.mem_filter.mp hmem
    obtain ⟨-, c', hc', hpc'⟩ :=
      (mem_completeRowsFrom parse cells 0 i' r').mp hmem'.1
    rw [Nat.sub_zero, hj, hc2] at hc'
    injection hc' with hcc
    rw [← hcc] at hpc'
    rw [hrow2] at hpc'
    injection hpc' with hr
    have h2 := hmem'.2
    rw [← hr] at h2
    simp [hgap2] at h2

/-- Instantiation of C4 on a concrete run: row 0 has a fully computed
aromatic proportion, row 3's aromatic-proportion computation raises. -/
theorem claim_C4_witness :
    get_aromatic_proportion molG =
      some (if 0 > 0 then (((([] : List Bool).filter (fun b => b)).length : ℚ) /
              ((0 : Nat) : ℚ))
            else 0) ∧
    (0, ⟨10, 1, 2, 3, 4, get_aromatic_proportion molG⟩) ∈ drowsW ∧
    get_aromatic_proportion molE = none ∧
    3 ∈ (loopFrom parseW 0 cellsW).validIdx ∧
    drowsW.filter (fun p => p.1 == 3) = [] :=
  claim_C4_aromatic_proportion parseW cellsW drowsW 0 "CCO" molG [] 0
    10 1 2 3 4 3 "ERR" molE 5 6 7 8 9
    (by decide) (by decide) (by decide) (by decide) (by decide)
    (by decide) (by decide) (by decide) (by decide) (by decide)
    (by decide) (by decide) (by decide) (Or.inl ⟨"GetAtoms raised", rfl⟩)
    (by decide) (by decide) (by decide) (by decide) (by decide) (by decide)

/-- Claim C5: exactly one of the success array and the error envelope is
emitted per invocation, never both and never neither; on failure the sole
output is the envelope carrying the message and the exception kind, and
the exit code is 1 (0 on success). -/
theorem claim_C5_exactly_one_output (env : Env) :
    (main env).out.length = 1 ∧
    ((∃ rows, mainTry env = .ok rows ∧ main env = ⟨[.arr rows], 0⟩) ∨
     (∃ e, mainTry env = .error e ∧ main env = ⟨[.errObj e.msg e.etype], 1⟩)) := by
  cases hm : mainTry env with
  | ok rows => exact ⟨by simp [main, hm], Or.inl ⟨rows, rfl, by simp [main, hm]⟩⟩
  | error e => exact ⟨by simp [main, hm], Or.inr ⟨e, rfl, by simp [main, hm]⟩⟩

/-- Claim C6 (code bug): extraction raises the no-valid-input error iff
zero rows survive — but a mid-row descriptor exception escalates even
with survivors present, as a different `ValueError`, contradicting the
claim's "in every other case per-row failures never escalate". -/
theorem claim_C6_perrow_failure_escalates :
    (loopFrom parseW 0 cellsC6).validIdx = [0, 2] ∧
    calculate_descriptors parseW cellsC6 =
      .error ⟨"ValueError", "All arrays must be of the same length"⟩ ∧
    ("All arrays must be of the same length" : String) ≠
      "No valid SMILES strings found in input" :=
  ⟨by decide, by decide, by decide⟩

/-- Claim C7: the output row count equals the input row count minus the
rows dropped at the extraction stage and at the missing-value filtering
stage, and each output row carries the corresponding input row verbatim
(only the prediction field is added). -/
theorem claim_C7_frame (env : Env) (tbl : InputTable) (out : List OutRow) (o : OutRow)
    (hcsv : env.readCsv (env.argv.getD 1 "") = .ok tbl)
    (h : mainTry env = .ok out) (ho : o ∈ out) :
    out.length + droppedAtExtraction env.parse (tbl.rows.map InputRow.smiles) +
        droppedAtFilter env.parse (tbl.rows.map InputRow.smiles) = tbl.rows.length ∧
    ∃ i, i < tbl.rows.length ∧ o.src = tbl.rows.getD i ⟨none, []⟩ := by
  obtain ⟨h1, tbl', drows, hcsv', hcol, hrows, hcalc, hne, hbd, hout⟩ :=
    mainTry_ok_inv env out h
  rw [hcsv] at hcsv'
  injection hcsv' with htbl
  subst htbl
  obtain ⟨hnab, hd⟩ := calc_ok_inv env.parse (tbl.rows.map InputRow.smiles) drows hcalc
  constructor
  · have hlen : out.length = drows.length := by rw [hout, List.length_map]
    have hlen2 : drows.length = (tbl.rows.map InputRow.smiles).countP
        (keptP env.parse) := by
      rw [hd]
      exact length_filter_completeRowsFrom env.parse (tbl.rows.map InputRow.smiles) 0
    have hpart := counts_partition env.parse (tbl.rows.map InputRow.smiles)
    rw [List.length_map] at hpart
    omega
  · rw [hout] at ho
    obtain ⟨p, hp, hpo⟩ := List.mem_map.mp ho
    exact ⟨p.1, hbd p hp, by rw [← hpo]⟩

/-- Instantiation of C7 on a concrete run: 1 output row + 2 dropped at
extraction + 1 dropped at filtering = 4 input rows. -/
theorem claim_C7_witness :
    outW.length + droppedAtExtraction envW.parse (tblW.rows.map InputRow.smiles) +
        droppedAtFilter envW.parse (tblW.rows.map InputRow.smiles) = tblW.rows.length ∧
    ∃ i, i < tblW.rows.length ∧
      (⟨⟨some "CCO", [("Name", "ethanol")]⟩, 10⟩ : OutRow).src =
        tblW.rows.getD i ⟨none, []⟩ :=
  claim_C7_frame envW tblW outW ⟨⟨some "CCO", [("Name", "ethanol")]⟩, 10⟩
    (by decide) (by decide) (by decide)

/-- Claim C8 (corrected): the fatal error kinds are the Python exception
type names, not the spec's invented names — wrong argument count emits
kind `ValueError` (not `UsageError`). -/
theorem claim_C8_counterexample :
    main envU = ⟨[.errObj "Usage: python predict.py <input_csv_file>" "ValueError"], 1⟩ ∧
    ("ValueError" : String) ≠ "UsageError" :=
  ⟨by decide, by decide⟩

/-- Claim C8 as amended: a missing/extra CLI argument fails fatally with
a `ValueError` carrying the usage message; a missing `SMILES` column or
an empty table fails with a `ValueError`; an absent model or scaler
artifact fails with a `FileNotFoundError`; each aborts the run with the
envelope as sole output and exit code 1. -/
theorem claim_C8_amended (env1 env2 env3 env4 env5 : Env)
    (tbl2 tbl3 tbl4 tbl5 : InputTable)
    (drows4 drows5 : List (Nat × DescRecord))
    (h1 : env1.argv.length ≠ 2)
    (h2a : env2.argv.length = 2) (h2b : env2.fileExists (env2.argv.getD 1 "") = true)
    (h2c : env2.readCsv (env2.argv.getD 1 "") = .ok tbl2)
    (h2d : "SMILES" ∉ tbl2.columns)
    (h3a : env3.argv.length = 2) (h3b : env3.fileExists (env3.argv.getD 1 "") = true)
    (h3c : env3.readCsv (env3.argv.getD 1 "") = .ok tbl3)
    (h3d : "SMILES" ∈ tbl3.columns) (h3e : tbl3.rows = [])
    (h4a : env4.argv.length = 2) (h4b : env4.fileExists (env4.argv.getD 1 "") = true)
    (h4c : env4.readCsv (env4.argv.getD 1 "") = .ok tbl4)
    (h4d : "SMILES" ∈ tbl4.columns) (h4e : tbl4.rows ≠ [])
    (h4f : calculate_descriptors env4.parse (tbl4.rows.map InputRow.smiles) = .ok drows4)
    (h4g : drows4 ≠ [])
    (h4h : env4.fileExists "random_forest_model.pkl" = false)
    (h5a : env5.argv.length = 2) (h5b : env5.fileExists (env5.argv.getD 1 "") = true)
    (h5c : env5.readCsv (env5.argv.getD 1 "") = .ok tbl5)
    (h5d : "SMILES" ∈ tbl5.columns) (h5e : tbl5.rows ≠ [])
    (h5f : calculate_descriptors env5.parse (tbl5.rows.map InputRow.smiles) = .ok drows5)
    (h5g : drows5 ≠ [])
    (h5h : env5.fileExists "random_forest_model.pkl" = true)
    (h5i : env5.fileExists "scaler.pkl" = false) :
    main env1 = ⟨[.errObj "Usage: python predict.py <input_csv_file>" "ValueError"], 1⟩ ∧
    main env2 = ⟨[.errObj "Input CSV must contain a 'SMILES' column" "ValueError"], 1⟩ ∧
    main env3 = ⟨[.errObj "Input CSV is empty" "ValueError"], 1⟩ ∧
    main env4 =
      ⟨[.errObj "Model file not found: random_forest_model.pkl" "FileNotFoundError"], 1⟩ ∧
    main env5 =
      ⟨[.errObj "Scaler file not found: scaler.pkl" "FileNotFoundError"], 1⟩ := by
  refine ⟨?_, ?_, ?_, ?_, ?_⟩
  · simp [main, mainTry, h1]
  · obtain ⟨a0, a1, hargs⟩ := List.length_eq_two.mp h2a
    have hget : env2.argv.getD 1 "" = a1 := by rw [hargs]; rfl
    rw [hget] at h2b h2c
    simp [main, mainTry, hargs, h2b, h2c, h2d]
  · obtain ⟨a0, a1, hargs⟩ := List.length_eq_two.mp h3a
    have hget : env3.argv.getD 1 "" = a1 := by rw [hargs]; rfl
    rw [hget] at h3b h3c
    simp [main, mainTry, hargs, h3b, h3c, h3d, h3e]
  · obtain ⟨a0, a1, hargs⟩ := List.length_eq_two.mp h4a
    have hget : env4.argv.getD 1 "" = a1 := by rw [hargs]; rfl
    rw [hget] at h4b h4c
    simp [main, mainTry, hargs, h4b, h4c, h4d, h4e, h4f, h4g, h4h]
  · obtain ⟨a0, a1, hargs⟩ := List.length_eq_two.mp h5a
    have hget : env5.argv.getD 1 "" = a1 := by rw [hargs]; rfl
    rw [hget] at h5b h5c
    simp [main, mainTry, hargs, h5b, h5c, h5d, h5e, h5f, h5g, h5h, h5i]

/-- Instantiation of C8-as-amended on five concrete environments. -/
theorem claim_C8_witness :
    main envU = ⟨[.errObj "Usage: python predict.py <input_csv_file>" "ValueError"], 1⟩ ∧
    main envNoCol = ⟨[.errObj "Input CSV must contain a 'SMILES' column" "ValueError"], 1⟩ ∧
    main envEmpty = ⟨[.errObj "Input CSV is empty" "ValueError"], 1⟩ ∧
    main envNoModel =
      ⟨[.errObj "Model file not found: random_forest_model.pkl" "FileNotFoundError"], 1⟩ ∧
    main envNoScaler =
      ⟨[.errObj "Scaler file not found: scaler.pkl" "FileNotFoundError"], 1⟩ :=
  claim_C8_amended envU envNoCol envEmpty envNoModel envNoScaler
    tblNoCol tblEmpty tblW tblW drowsW drowsW
    (by decide) (by decide) (by decide) (by decide) (by decide)
    (by decide) (by decide) (by decide) (by decide) (by decide)
    (by decide) (by decide) (by decide) (by decide) (by decide)
    (by decide) (by decide) (by decide) (by decide) (by decide)
    (by decide) (by decide) (by decide) (by decide) (by decide)
    (by decide) (by decide)

/-- Claim C9: the extractor parses the whitespace-trimmed string, so a
row whose structure string carries surrounding whitespace is processed
exactly like the row with the trimmed string (same outcome, hence same
descriptor record and prediction). -/
theorem claim_C9_trim_invariance (parse : String → Option Mol) (s : String) :
    processRow parse (some s) = processRow parse (some (pyStrip s)) := by
  simp only [processRow, pyStrip_idem]

/-- Claim C10: artifacts are consulted only after extraction has
produced a survivor; when every row fails extraction, the run fails with
the no-valid-input error whatever the artifact files contain. -/
theorem claim_C10_artifacts_after_extraction (env : Env) (tbl : InputTable)
    (h1 : env.argv.length = 2)
    (h2 : env.fileExists (env.argv.getD 1 "") = true)
    (h3 : env.readCsv (env.argv.getD 1 "") = .ok tbl)
    (h4 : "SMILES" ∈ tbl.columns) (h5 : tbl.rows ≠ [])
    (h6 : (loopFrom env.parse 0 (tbl.rows.map InputRow.smiles)).validIdx = []) :
    main env = ⟨[.errObj "No valid SMILES strings found in input" "ValueError"], 1⟩ := by
  obtain ⟨a0, a1, hargs⟩ := List.length_eq_two.mp h1
  have hget : env.argv.getD 1 "" = a1 := by rw [hargs]; rfl
  rw [hget] at h2 h3
  have hcalc := calc_error_of_validIdx_nil env.parse (tbl.rows.map InputRow.smiles) h6
  simp [main, mainTry, hargs, h2, h3, h4, h5, hcalc]

/-- Instantiation of C10 on a concrete environment whose artifact files
are all absent and whose rows all fail extraction. -/
theorem claim_C10_witness :
    main envAllBad = ⟨[.errObj "No valid SMILES strings found in input" "ValueError"], 1⟩ :=
  claim_C10_artifacts_after_extraction envAllBad tblAllBad
    (by decide) (by decide) (by decide) (by decide) (by decide) (by decide)

end Predict
